import Mathlib

/-!
Verification of the offline-first synchronization subsystem of the
`parisgastos` expense-tracking PWA.

The embedding covers:

* `src/lib/offline-storage.ts` — the IndexedDB-backed durable store
  (`OfflineExpense`, `PendingAction`, the `expenses` and `pending-sync`
  object stores and their operations).  Each IndexedDB object store is a
  key-ordered collection of records with `keyPath = 'id'`; `put` inserts
  or replaces at the key's position, `delete` removes the key, and
  `getAll` returns the records in ascending key order.  We model a store
  as the list of its records kept sorted by `id`, which is exactly the
  observable state IndexedDB maintains.

* the `useOfflineSync` hook (`src/unnamed/part_001`) — `updateExpense`,
  `deleteExpense` and the reconciliation drain `syncPendingActions`.
  Remote Supabase calls are modelled by a trace of `RemoteCall` values
  plus an environment `SyncEnv` giving, per queued action, the outcome
  of its awaited call: the promise either rejects (`throws`, reaching
  the loop's `catch`, which keeps the action queued) or fulfills with a
  `{data, error}` result (`resolves`); the drain never reads the
  result's `error` field, so a call that resolves with an error object
  takes the same path as a clean success.  The hook's `isOnline` /
  `isSyncing` flags are render-scoped `useState` values: an invocation
  of the drain reads the values its closure captured, and the `setState`
  calls it makes are visible only to closures of later renders — so two
  back-to-back triggers within one render both read the same captured
  flags.  Clock reads (`new Date().toISOString()`, `Date.now()`) and
  `crypto.randomUUID()` are passed in as explicit parameters.
-/

namespace ParisGastos

/-- Denormalized category snapshot carried on an expense
(`OfflineExpense.category` in `offline-storage.ts`). -/
structure Category where
  id : String
  name : String
  color : String
  icon : String
deriving DecidableEq, Repr

/-- `source?: 'splitwise' | 'manual'` in `offline-storage.ts`. -/
inductive ExpenseSource
  | splitwise
  | manual
deriving DecidableEq, Repr

/-- `OfflineExpense` from `offline-storage.ts`: a cached expense record.
`amount` is an integral model of the JS number; optional fields are
`Option`s. -/
structure OfflineExpense where
  id : String
  user_id : String
  amount : Int
  description : String
  date : String
  currency : String
  category_id : Option String := none
  category : Option Category := none
  payment_method : Option String := none
  notes : Option String := none
  is_excluded : Option Bool := none
  source : Option ExpenseSource := none
  synced : Bool
  created_at : String
  updated_at : String
deriving DecidableEq, Repr

/-- The action kind of a `PendingAction`: `'create' | 'update' | 'delete'`. -/
inductive ActionKind
  | create
  | update
  | delete
deriving DecidableEq, Repr

/-- `PendingAction` from `offline-storage.ts`: one queued local mutation,
holding a full snapshot of the mutated expense and its enqueue timestamp
(milliseconds since epoch). -/
structure PendingAction where
  id : String
  action : ActionKind
  expense : OfflineExpense
  timestamp : Nat
deriving DecidableEq, Repr

/-! ### Generic key-ordered collection operations

IndexedDB object-store semantics over a record list sorted by the string
key: `put` replaces the record at an existing key or inserts at the
key's ordered position, `delete` drops the key, `get` finds the record
under a key. -/

/-- Lexicographic comparison of character lists by code point — the
order IndexedDB uses on string keys. -/
def charsLt : List Char → List Char → Bool
  | _, [] => false
  | [], _ :: _ => true
  | c :: cs, d :: ds =>
    if c.toNat < d.toNat then true
    else if d.toNat < c.toNat then false
    else charsLt cs ds

/-- Lexicographic string comparison by code point. -/
def strLt (a b : String) : Bool := charsLt a.data b.data

/-- IndexedDB `store.put(x)`: insert-or-replace at the position of
`key x` in a key-ascending record list. -/
def putByKey (key : α → String) (x : α) : List α → List α
  | [] => [x]
  | y :: ys =>
    if key x = key y then x :: ys
    else if strLt (key x) (key y) then x :: y :: ys
    else y :: putByKey key x ys

/-- IndexedDB `store.delete(i)`: remove the record stored under key `i`. -/
def eraseByKey (key : α → String) (i : String) : List α → List α
  | [] => []
  | y :: ys => if key y = i then eraseByKey key i ys else y :: eraseByKey key i ys

/-- IndexedDB `store.get(i)` / `list.find(y => y.id === i)`: the first
record stored under key `i`. -/
def lookupByKey (key : α → String) (i : String) : List α → Option α
  | [] => none
  | y :: ys => if key y = i then some y else lookupByKey key i ys

/-! ### The durable local store (`offline-storage.ts`) -/

/-- The two object stores of `expense-tracker-db`: `expenses` (cached
records) and `pending-sync` (the pending-action queue), each keyed by
`id` and held in key order as IndexedDB maintains them. -/
structure OfflineStorage where
  expenses : List OfflineExpense
  pending : List PendingAction
deriving DecidableEq, Repr

/-- A freshly created database: both object stores empty. -/
def OfflineStorage.empty : OfflineStorage :=
  { expenses := [], pending := [] }

/-- `getAllExpenses()`: `getAll` on the expenses store, key-ascending. -/
def OfflineStorage.getAllExpenses (s : OfflineStorage) : List OfflineExpense :=
  s.expenses

/-- `saveExpense(expense)`: `put` on the expenses store. -/
def OfflineStorage.saveExpense (s : OfflineStorage) (e : OfflineExpense) : OfflineStorage :=
  { s with expenses := putByKey (fun r => r.id) e s.expenses }

/-- `saveMultipleExpenses(expenses)`: one `put` per record, in order. -/
def OfflineStorage.saveMultipleExpenses (s : OfflineStorage) (es : List OfflineExpense) : OfflineStorage :=
  es.foldl (fun st e => st.saveExpense e) s

/-- `deleteExpense(id)` on the store: `delete` on the expenses store. -/
def OfflineStorage.deleteExpense (s : OfflineStorage) (i : String) : OfflineStorage :=
  { s with expenses := eraseByKey (fun r => r.id) i s.expenses }

/-- `addPendingAction(action)`: `put` on the pending-sync store. -/
def OfflineStorage.addPendingAction (s : OfflineStorage) (a : PendingAction) : OfflineStorage :=
  { s with pending := putByKey (fun p => p.id) a s.pending }

/-- `getPendingActions()`: `getAll` on the pending-sync store.  IndexedDB
returns the records in ascending order of the store's key path `id` (the
`timestamp` index declared in `init` is never used for this read). -/
def OfflineStorage.getPendingActions (s : OfflineStorage) : List PendingAction :=
  s.pending

/-- `deletePendingAction(id)`: `delete` on the pending-sync store. -/
def OfflineStorage.deletePendingAction (s : OfflineStorage) (i : String) : OfflineStorage :=
  { s with pending := eraseByKey (fun p => p.id) i s.pending }

/-- The cached record stored under `id`, if any. -/
def lookupExpense (s : OfflineStorage) (i : String) : Option OfflineExpense :=
  lookupByKey (fun r => r.id) i s.expenses

/-- The queued action stored under `id`, if any. -/
def lookupPending (s : OfflineStorage) (i : String) : Option PendingAction :=
  lookupByKey (fun p => p.id) i s.pending

/-! ### The remote calls made by the drain (`useOfflineSync`) -/

/-- JavaScript `parseInt(s)` (radix 10) applied to a category id string:
skip leading whitespace, optional sign, then the maximal run of decimal
digits; `none` models the `NaN` result when no digit follows. -/
def parseIntJS (s : String) : Option Int :=
  match s.data.dropWhile (fun c => c.isWhitespace) with
  | '-' :: rest => (parseDigits rest).map (fun n => -(n : Int))
  | '+' :: rest => (parseDigits rest).map (fun n => (n : Int))
  | cs => (parseDigits cs).map (fun n => (n : Int))
where
  parseDigits (cs : List Char) : Option Nat :=
    let ds := cs.takeWhile (fun c => c.isDigit)
    if ds.isEmpty then none
    else some (ds.foldl (fun a c => a * 10 + (c.toNat - 48)) 0)

/-- The row fields sent by the drain's `update` branch to
`splitwise_expenses` (lines 65–75 of the hook). -/
structure RemoteUpdatePayload where
  total_amount : Int
  description : String
  expense_date : String
  currency_code : String
  category_id : Option (Option Int)
  is_excluded : Bool
deriving DecidableEq, Repr

/-- Payload built from the action's snapshot: `currency || 'EUR'` maps
the empty (falsy) string to `"EUR"`; `category_id ? parseInt(category_id)
: null` maps a missing or empty id to `null` (outer `none`), and a
non-numeric id to `NaN` (inner `none`). -/
def remoteUpdatePayload (e : OfflineExpense) : RemoteUpdatePayload :=
  { total_amount := e.amount
    description := e.description
    expense_date := e.date
    currency_code := if e.currency = "" then "EUR" else e.currency
    category_id :=
      match e.category_id with
      | some cid => if cid = "" then none else some (parseIntJS cid)
      | none => none
    is_excluded := e.is_excluded.getD false }

/-- One attempted Supabase call issued by the drain loop. -/
inductive RemoteCall
  | update (id : String) (payload : RemoteUpdatePayload)
  | delete (id : String)
deriving DecidableEq, Repr

/-- Outcome of one awaited Supabase call: the promise either rejects
(`throws` — a network-level exception, reaching the loop's `catch`) or
fulfills (`resolves`) with a `{data, error}` result object whose error
presence is `hasError`.  Supabase query builders do not throw on
database errors; they return them in the result (the repo's own RPC
code checks `if (error) throw error` — the drain has no such check). -/
inductive RemoteOutcome
  | throws
  | resolves (hasError : Bool)
deriving DecidableEq, Repr

/-- Environment giving, per queued action, the outcome of its awaited
remote call. -/
abbrev SyncEnv : Type := PendingAction → RemoteOutcome

/-- The remote call(s) the drain attempts for one action: one `update` or
`delete` call; a `create` action matches no `switch` case, so no call. -/
def callsOfAction (a : PendingAction) : List RemoteCall :=
  match a.action with
  | ActionKind.update => [RemoteCall.update a.expense.id (remoteUpdatePayload a.expense)]
  | ActionKind.delete => [RemoteCall.delete a.expense.id]
  | ActionKind.create => []

/-! ### The reconciliation drain (`syncPendingActions`, lines 45–111) -/

/-- One iteration of the drain's `for` loop (lines 58–99): dispatch on
the action kind.  Only a rejected `await` (`RemoteOutcome.throws`)
reaches the `catch`, which leaves the storage untouched and lets the
loop continue.  A call that resolves proceeds unconditionally — the
drain never reads the result's `error` field — so even a resolution
carrying an error object marks the snapshot synced (non-delete) or
drops the local record (delete), then removes the action from the
queue.  A `create` action makes no remote call, falls through the
`switch`, and takes the same mark-synced-and-dequeue path. -/
def syncAction (env : SyncEnv) (st : OfflineStorage) (a : PendingAction) :
    OfflineStorage × List RemoteCall :=
  match a.action with
  | ActionKind.update =>
    match env a with
    | RemoteOutcome.throws => (st, callsOfAction a)
    | RemoteOutcome.resolves _ =>
      (((st.saveExpense { a.expense with synced := true }).deletePendingAction a.id),
        callsOfAction a)
  | ActionKind.delete =>
    match env a with
    | RemoteOutcome.throws => (st, callsOfAction a)
    | RemoteOutcome.resolves _ =>
      (((st.deleteExpense a.expense.id).deletePendingAction a.id), callsOfAction a)
  | ActionKind.create =>
    (((st.saveExpense { a.expense with synced := true }).deletePendingAction a.id),
      callsOfAction a)

/-- The drain's `for` loop over the snapshot of the queue taken at entry
(line 52): process each action in list order, threading the storage and
concatenating the attempted remote calls. -/
def syncQueue (env : SyncEnv) (st : OfflineStorage) :
    List PendingAction → OfflineStorage × List RemoteCall
  | [] => (st, [])
  | a :: rest =>
    let r1 := syncAction env st a
    let r2 := syncQueue env r1.fst rest
    (r2.fst, r1.snd ++ r2.snd)

/-- The hook state one render's closures captured: the storage handle,
the connectivity flag `isOnline`, the `SyncSession.inProgress` flag
`isSyncing`, and the exposed `pendingCount`.  `isOnline`, `isSyncing`
and `pendingCount` are React `useState` values: a closure reads the
values of the render that created it, and `setState` calls are visible
only to closures of later renders. -/
structure SyncState where
  storage : OfflineStorage
  isOnline : Bool
  isSyncing : Bool
  pendingCount : Nat
deriving DecidableEq, Repr

/-- `syncPendingActions` (lines 45–111), one invocation of the callback
whose closure captured the render state `s`.  The guard
`if (!isOnline || isSyncing) return` reads the captured flags, so it is
a no-op exactly when the *captured* state shows offline or an
in-progress drain; otherwise the body reads the queue snapshot, runs the
loop, and recomputes `pendingCount` by re-reading the queue.  The
`setIsSyncing(true)` at entry and the `finally`'s `setIsSyncing(false)`
update state of later renders only — they are invisible to any other
closure of the same render — so the returned `SyncState` is what a
subsequent render observes (net `isSyncing = false`), paired with the
trace of attempted remote calls. -/
def syncPendingActions (env : SyncEnv) (s : SyncState) : SyncState × List RemoteCall :=
  if !s.isOnline || s.isSyncing then (s, [])
  else
    let pending := s.storage.getPendingActions
    let r := syncQueue env s.storage pending
    ({ s with
        storage := r.fst
        pendingCount := r.fst.getPendingActions.length
        isSyncing := false },
      r.snd)

/-- Two back-to-back triggers of the drain within one render (e.g. two
quick `updateExpense`/`deleteExpense` calls, whose `useCallback` deps
`[isOnline]` capture one `syncPendingActions` closure): both read the
same captured state `s` — the first trigger's `setIsSyncing(true)` is
invisible to the second — and the attempted remote calls are those of
both runs. -/
def backToBackCalls (env : SyncEnv) (s : SyncState) : List RemoteCall :=
  (syncPendingActions env s).snd ++ (syncPendingActions env s).snd

/-! ### The queue-manager mutations (`updateExpense`, `deleteExpense`) -/

/-- Failure of a queue-manager mutation: the hook's
`throw new Error('Expense not found')`, the spec's `RecordNotFound`. -/
inductive SyncErr
  | RecordNotFound
deriving DecidableEq, Repr

/-- `Partial<OfflineExpense>`: every field optionally present.  A
present optional field carries the new `Option` value (so
`category_id := some none` models passing `category_id: undefined`
explicitly). -/
structure ExpenseUpdates where
  id : Option String := none
  user_id : Option String := none
  amount : Option Int := none
  description : Option String := none
  date : Option String := none
  currency : Option String := none
  category_id : Option (Option String) := none
  category : Option (Option Category) := none
  payment_method : Option (Option String) := none
  notes : Option (Option String) := none
  is_excluded : Option (Option Bool) := none
  source : Option (Option ExpenseSource) := none
  synced : Option Bool := none
  created_at : Option String := none
  updated_at : Option String := none
deriving DecidableEq, Repr

/-- The merged record `{...existing, ...updates, synced: false,
updated_at: new Date().toISOString()}` (lines 147–152): fields present in
`updates` override `existing`, and the trailing explicit properties force
`synced` and `updated_at` last. -/
def mergeExpense (existing : OfflineExpense) (u : ExpenseUpdates) (now : String) :
    OfflineExpense :=
  { id := u.id.getD existing.id
    user_id := u.user_id.getD existing.user_id
    amount := u.amount.getD existing.amount
    description := u.description.getD existing.description
    date := u.date.getD existing.date
    currency := u.currency.getD existing.currency
    category_id := u.category_id.getD existing.category_id
    category := u.category.getD existing.category
    payment_method := u.payment_method.getD existing.payment_method
    notes := u.notes.getD existing.notes
    is_excluded := u.is_excluded.getD existing.is_excluded
    source := u.source.getD existing.source
    synced := false
    updated_at := now
    created_at := u.created_at.getD existing.created_at }

/-- `updateExpense(id, updates)` (lines 140–174): find the record in
`getAllExpenses()`, throw `RecordNotFound` when absent; otherwise merge,
persist the merged record, enqueue an `update` action holding the full
merged snapshot, and return the merged record.  `now` models
`new Date().toISOString()`, `actionId` models `crypto.randomUUID()`, and
`ts` models `Date.now()`. -/
def updateExpense (s : OfflineStorage) (i : String) (u : ExpenseUpdates)
    (now actionId : String) (ts : Nat) :
    Except SyncErr (OfflineStorage × OfflineExpense) :=
  match lookupByKey (fun e => e.id) i s.getAllExpenses with
  | none => Except.error SyncErr.RecordNotFound
  | some existing =>
    let updatedExpense := mergeExpense existing u now
    let s1 := s.saveExpense updatedExpense
    let action : PendingAction :=
      { id := actionId, action := ActionKind.update
        expense := updatedExpense, timestamp := ts }
    Except.ok (s1.addPendingAction action, updatedExpense)

/-- `deleteExpense(id)` (lines 177–200): find the record, throw
`RecordNotFound` when absent; otherwise enqueue a `delete` action holding
a snapshot of the record as it exists — the cached record itself is not
touched. -/
def deleteExpense (s : OfflineStorage) (i : String) (actionId : String) (ts : Nat) :
    Except SyncErr OfflineStorage :=
  match lookupByKey (fun e => e.id) i s.getAllExpenses with
  | none => Except.error SyncErr.RecordNotFound
  | some existing =>
    let action : PendingAction :=
      { id := actionId, action := ActionKind.delete
        expense := existing, timestamp := ts }
    Except.ok (s.addPendingAction action)

/-! ### Derived forms used in statements -/

/-- The remote calls a drain pass attempts for a queue snapshot, in the
order the `for` loop visits the actions. -/
def attemptedCalls : List PendingAction → List RemoteCall
  | [] => []
  | a :: rest => callsOfAction a ++ attemptedCalls rest

/-- A sequence of `addPendingAction` calls, in order. -/
def OfflineStorage.enqueueAll (s : OfflineStorage) (acts : List PendingAction) :
    OfflineStorage :=
  acts.foldl (fun st a => st.addPendingAction a) s

/-! ### Concrete fixtures for witnesses and counterexamples -/

/-- Fixture: a cached record `ra` for the failing action of P3. -/
def c1ExpA : OfflineExpense :=
  { id := "ra", user_id := "u", amount := 10, description := "rent", date := "2024-01-01",
    currency := "EUR", synced := false, created_at := "t0", updated_at := "t0" }

/-- Fixture: a cached record `rb` for the succeeding action of P3. -/
def c1ExpB : OfflineExpense :=
  { id := "rb", user_id := "u", amount := 20, description := "food", date := "2024-01-02",
    currency := "EUR", synced := false, created_at := "t0", updated_at := "t0" }

/-- Fixture: queued update for `ra` whose remote call will fail. -/
def c1A : PendingAction :=
  { id := "a1", action := ActionKind.update, expense := c1ExpA, timestamp := 1 }

/-- Fixture: queued update for `rb` whose remote call will succeed. -/
def c1B : PendingAction :=
  { id := "b2", action := ActionKind.update, expense := c1ExpB, timestamp := 2 }

/-- Fixture: storage holding both records and both queued actions. -/
def c1St : OfflineStorage :=
  { expenses := [c1ExpA, c1ExpB], pending := [c1A, c1B] }

/-- Fixture: remote environment under which `a1`'s call throws and
`b2`'s call resolves cleanly. -/
def c1Env : SyncEnv := fun p =>
  if p.id == "b2" then RemoteOutcome.resolves false else RemoteOutcome.throws

/-- Fixture: remote environment under which every call resolves but the
result carries an error object — the outcome the drain never checks. -/
def resolvesWithError : SyncEnv := fun _ => RemoteOutcome.resolves true

/-- Fixture: the record both C2 queue entries target. -/
def c2Exp : OfflineExpense :=
  { id := "e1", user_id := "u", amount := 10, description := "coffee", date := "2024-02-01",
    currency := "EUR", synced := false, created_at := "t0", updated_at := "t0" }

/-- Fixture: first enqueued update (timestamp 1), action id `"b"`. -/
def c2ActA : PendingAction :=
  { id := "b", action := ActionKind.update, expense := c2Exp, timestamp := 1 }

/-- Fixture: second enqueued update (timestamp 2) of the same record with
amount 25, action id `"a"` — `crypto.randomUUID()` gives ids unrelated to
enqueue order. -/
def c2ActB : PendingAction :=
  { id := "a", action := ActionKind.update, expense := { c2Exp with amount := 25 },
    timestamp := 2 }

/-- Fixture: the store after enqueueing `c2ActA` then `c2ActB`. -/
def c2Store : OfflineStorage :=
  ((OfflineStorage.empty.saveExpense c2Exp).addPendingAction c2ActA).addPendingAction c2ActB

/-- Fixture: an online, idle sync state over `c1St`. -/
def c3St : SyncState :=
  { storage := c1St, isOnline := true, isSyncing := false, pendingCount := 2 }

/-- Fixture: a remote environment whose every call resolves cleanly. -/
def allOk : SyncEnv := fun _ => RemoteOutcome.resolves false

/-- Fixture: cached record that C4 and C10 update. -/
def c4Exp : OfflineExpense :=
  { id := "e4", user_id := "u", amount := 10, description := "bus", date := "2024-03-01",
    currency := "EUR", synced := true, created_at := "t0", updated_at := "t0" }

/-- Fixture: store holding only `c4Exp`. -/
def c4St : OfflineStorage := { expenses := [c4Exp], pending := [] }

/-- Fixture: the partial update `{amount: 50}` of P5. -/
def c4Upd : ExpenseUpdates := { amount := some 50 }

/-- Fixture: a partial update that itself tries to set `synced: true` and
a stale `updated_at`, which C10 says the merge must override. -/
def c10Upd : ExpenseUpdates :=
  { amount := some 99, synced := some true, updated_at := some "1999-01-01" }

/-- Fixture: cached record that C5 deletes. -/
def c5Exp : OfflineExpense :=
  { id := "e5", user_id := "u", amount := 7, description := "snack", date := "2024-04-01",
    currency := "EUR", synced := true, created_at := "t0", updated_at := "t0" }

/-- Fixture: store holding only `c5Exp`. -/
def c5St : OfflineStorage := { expenses := [c5Exp], pending := [] }

/-- Fixture: `c5St` after `deleteExpense("e5")` enqueued its action. -/
def c5StQ : OfflineStorage :=
  c5St.addPendingAction ⟨"act5", ActionKind.delete, c5Exp, 500⟩

/-- Fixture: store with one record, used to probe a missing id. -/
def c6St : OfflineStorage := { expenses := [c4Exp], pending := [] }

/-- Fixture: sync state with two all-success pending actions for C7. -/
def c7St : SyncState :=
  { storage := c1St, isOnline := true, isSyncing := false, pendingCount := 2 }

/-- Fixture: a queued `create` action for C9. -/
def c9Act : PendingAction :=
  { id := "c9", action := ActionKind.create, expense := c5Exp, timestamp := 9 }

/-- Fixture: store holding the `create` action and no matching record. -/
def c9St : OfflineStorage := { expenses := [], pending := [c9Act] }

/-! ### Lemmas about the key-ordered collection operations -/

theorem lookupByKey_putByKey_self (key : α → String) (x : α) (l : List α) :
    lookupByKey key (key x) (putByKey key x l) = some x := by
  induction l with
  | nil => simp [putByKey, lookupByKey]
  | cons y ys ih =>
    by_cases h1 : key x = key y
    · simp [putByKey, h1, lookupByKey]
    · by_cases h2 : strLt (key x) (key y) = true
      · simp [putByKey, h1, h2, lookupByKey]
      · simp only [putByKey, if_neg h1, if_neg h2, lookupByKey, if_neg (Ne.symm h1)]
        exact ih

theorem lookupByKey_putByKey_ne (key : α → String) (x : α) (i : String) (l : List α)
    (h : key x ≠ i) :
    lookupByKey key i (putByKey key x l) = lookupByKey key i l := by
  induction l with
  | nil => simp [putByKey, lookupByKey, h]
  | cons y ys ih =>
    by_cases h1 : key x = key y
    · have hy : key y ≠ i := h1 ▸ h
      simp only [putByKey, if_pos h1, lookupByKey, if_neg h, if_neg hy]
    · by_cases h2 : strLt (key x) (key y) = true
      · simp only [putByKey, if_neg h1, if_pos h2, lookupByKey, if_neg h]
      · by_cases h3 : key y = i
        · simp only [putByKey, if_neg h1, if_neg h2, lookupByKey, if_pos h3]
        · simp only [putByKey, if_neg h1, if_neg h2, lookupByKey, if_neg h3]
          exact ih

theorem putByKey_putByKey_same (key : α → String) (x : α) (l : List α) :
    putByKey key x (putByKey key x l) = putByKey key x l := by
  induction l with
  | nil => simp [putByKey]
  | cons y ys ih =>
    by_cases h1 : key x = key y
    · simp [putByKey, h1]
    · by_cases h2 : strLt (key x) (key y) = true
      · simp [putByKey, h1, h2]
      · simp [putByKey, h1, h2, ih]

theorem lookupByKey_eraseByKey_self (key : α → String) (i : String) (l : List α) :
    lookupByKey key i (eraseByKey key i l) = none := by
  induction l with
  | nil => simp [eraseByKey, lookupByKey]
  | cons y ys ih =>
    by_cases h1 : key y = i
    · simp only [eraseByKey, if_pos h1]
      exact ih
    · simp only [eraseByKey, if_neg h1, lookupByKey, if_neg h1]
      exact ih

theorem lookupByKey_eraseByKey_ne (key : α → String) (i j : String) (l : List α)
    (h : i ≠ j) :
    lookupByKey key j (eraseByKey key i l) = lookupByKey key j l := by
  induction l with
  | nil => simp [eraseByKey]
  | cons y ys ih =>
    by_cases h1 : key y = i
    · have hy : key y ≠ j := fun hj => h (h1.symm.trans hj)
      simp only [eraseByKey, if_pos h1, lookupByKey, if_neg hy]
      exact ih
    · by_cases h2 : key y = j
      · simp only [eraseByKey, if_neg h1, lookupByKey, if_pos h2]
      · simp only [eraseByKey, if_neg h1, lookupByKey, if_neg h2]
        exact ih

theorem mem_putByKey {key : α → String} {x : α} {l : List α} {y : α}
    (h : y ∈ putByKey key x l) : y = x ∨ y ∈ l := by
  induction l with
  | nil => simpa [putByKey] using h
  | cons z zs ih =>
    by_cases h1 : key x = key z
    · simp only [putByKey, if_pos h1, List.mem_cons] at h
      rcases h with h | h
      · exact Or.inl h
      · exact Or.inr (List.mem_cons_of_mem _ h)
    · by_cases h2 : strLt (key x) (key z) = true
      · simp only [putByKey, if_neg h1, if_pos h2, List.mem_cons] at h
        rcases h with h | h | h
        · exact Or.inl h
        · exact Or.inr (h ▸ List.mem_cons_self _ _)
        · exact Or.inr (List.mem_cons_of_mem _ h)
      · simp only [putByKey, if_neg h1, if_neg h2, List.mem_cons] at h
        rcases h with h | h
        · exact Or.inr (h ▸ List.mem_cons_self _ _)
        · rcases ih h with h3 | h3
          · exact Or.inl h3
          · exact Or.inr (List.mem_cons_of_mem _ h3)

theorem mem_eraseByKey {key : α → String} {i : String} {l : List α} {y : α}
    (h : y ∈ eraseByKey key i l) : y ∈ l ∧ key y ≠ i := by
  induction l with
  | nil => simp [eraseByKey] at h
  | cons z zs ih =>
    by_cases h1 : key z = i
    · simp only [eraseByKey, if_pos h1] at h
      exact ⟨List.mem_cons_of_mem _ (ih h).1, (ih h).2⟩
    · simp only [eraseByKey, if_neg h1, List.mem_cons] at h
      rcases h with h | h
      · exact ⟨h ▸ List.mem_cons_self _ _, h ▸ h1⟩
      · exact ⟨List.mem_cons_of_mem _ (ih h).1, (ih h).2⟩

theorem charsLt_total (as : List Char) :
    ∀ bs : List Char, charsLt as bs = false → as = bs ∨ charsLt bs as = true := by
  induction as with
  | nil =>
    intro bs h
    cases bs with
    | nil => exact Or.inl rfl
    | cons d ds => exact absurd h (by simp [charsLt])
  | cons c cs ih =>
    intro bs h
    cases bs with
    | nil => exact Or.inr rfl
    | cons d ds =>
      by_cases h1 : c.toNat < d.toNat
      · rw [charsLt, if_pos h1] at h
        exact absurd h (by simp)
      · by_cases h2 : d.toNat < c.toNat
        · refine Or.inr ?_
          rw [charsLt, if_pos h2]
        · have hcd : c = d :=
            Char.ext (UInt32.ext
              (Nat.le_antisymm (Nat.le_of_not_lt h2) (Nat.le_of_not_lt h1)))
          rw [charsLt, if_neg h1, if_neg h2] at h
          rcases ih ds h with h3 | h3
          · exact Or.inl (by rw [hcd, h3])
          · refine Or.inr ?_
            rw [charsLt, if_neg h2, if_neg h1]
            exact h3

theorem strLt_total (a b : String) (h : strLt a b = false) (hne : a ≠ b) :
    strLt b a = true := by
  rcases charsLt_total a.data b.data h with h1 | h1
  · cases a
    cases b
    cases h1
    exact absurd rfl hne
  · exact h1

theorem chain_putByKey (key : α → String) (x : α) (l : List α)
    (h : l.Chain' (fun a b => strLt (key a) (key b) = true)) :
    (putByKey key x l).Chain' (fun a b => strLt (key a) (key b) = true) := by
  induction l with
  | nil => simp [putByKey]
  | cons y ys ih =>
    have horig := h
    rw [List.chain'_cons'] at h
    by_cases h1 : key x = key y
    · rw [putByKey, if_pos h1, List.chain'_cons']
      refine ⟨?_, h.2⟩
      intro b hb
      rw [h1]
      exact h.1 b hb
    · by_cases h2 : strLt (key x) (key y) = true
      · rw [putByKey, if_neg h1, if_pos h2]
        exact List.Chain'.cons h2 horig
      · have hf : strLt (key x) (key y) = false := by
          simpa using h2
        have hyx : strLt (key y) (key x) = true := strLt_total _ _ hf h1
        rw [putByKey, if_neg h1, if_neg h2, List.chain'_cons']
        refine ⟨?_, ih h.2⟩
        intro b hb
        cases ys with
        | nil =>
          simp [putByKey] at hb
          subst hb
          exact hyx
        | cons z zs =>
          by_cases h3 : key x = key z
          · rw [putByKey, if_pos h3] at hb
            simp at hb
            subst hb
            exact hyx
          · by_cases h4 : strLt (key x) (key z) = true
            · rw [putByKey, if_neg h3, if_pos h4] at hb
              simp at hb
              subst hb
              exact hyx
            · rw [putByKey, if_neg h3, if_neg h4] at hb
              simp at hb
              subst hb
              exact h.1 z (by simp)

theorem lookupByKey_eq_some_key {key : α → String} {i : String} {l : List α} {y : α}
    (h : lookupByKey key i l = some y) : key y = i := by
  induction l with
  | nil => simp [lookupByKey] at h
  | cons z zs ih =>
    by_cases h1 : key z = i
    · rw [lookupByKey, if_pos h1, Option.some_inj] at h
      exact h ▸ h1
    · rw [lookupByKey, if_neg h1] at h
      exact ih h

/-! ### Lemmas about the drain -/

theorem syncAction_snd (env : SyncEnv) (st : OfflineStorage) (a : PendingAction) :
    (syncAction env st a).snd = callsOfAction a := by
  cases hk : a.action <;> cases he : env a <;> simp [syncAction, hk, he]

theorem syncAction_fail (env : SyncEnv) (st : OfflineStorage) (a : PendingAction)
    (ha : env a = RemoteOutcome.throws) (hk : a.action ≠ ActionKind.create) :
    syncAction env st a = (st, callsOfAction a) := by
  cases hka : a.action
  · exact absurd hka hk
  · simp [syncAction, hka, ha]
  · simp [syncAction, hka, ha]

theorem syncAction_pending_success (env : SyncEnv) (st : OfflineStorage)
    (a : PendingAction) (ha : env a ≠ RemoteOutcome.throws) :
    (syncAction env st a).fst.pending = eraseByKey (fun p => p.id) a.id st.pending := by
  cases hka : a.action <;> cases he : env a <;>
    first
    | exact absurd he ha
    | simp [syncAction, hka, he, OfflineStorage.saveExpense,
        OfflineStorage.deleteExpense, OfflineStorage.deletePendingAction]

theorem syncQueue_calls (env : SyncEnv) (l : List PendingAction) (st : OfflineStorage) :
    (syncQueue env st l).snd = attemptedCalls l := by
  induction l generalizing st with
  | nil => rfl
  | cons a rest ih =>
    simp [syncQueue, attemptedCalls, syncAction_snd, ih]

theorem syncQueue_pending_nil (env : SyncEnv) (l : List PendingAction) :
    ∀ st : OfflineStorage,
      (∀ a ∈ l, env a ≠ RemoteOutcome.throws) →
      (∀ x ∈ st.pending, ∃ a ∈ l, x.id = a.id) →
      (syncQueue env st l).fst.pending = [] := by
  induction l with
  | nil =>
    intro st _ hcov
    rcases hp : st.pending with _ | ⟨x, xs⟩
    · simpa [syncQueue] using hp
    · exfalso
      rcases hcov x (hp ▸ List.mem_cons_self _ _) with ⟨a, ha, _⟩
      exact (List.not_mem_nil a) ha
  | cons a rest ih =>
    intro st hall hcov
    have ha : env a ≠ RemoteOutcome.throws := hall a (List.mem_cons_self _ _)
    have hstep : (syncAction env st a).fst.pending =
        eraseByKey (fun p => p.id) a.id st.pending :=
      syncAction_pending_success env st a ha
    have hcov1 : ∀ x ∈ (syncAction env st a).fst.pending, ∃ b ∈ rest, x.id = b.id := by
      intro x hx
      rw [hstep] at hx
      rcases mem_eraseByKey hx with ⟨hxmem, hxid⟩
      rcases hcov x hxmem with ⟨b, hb, hid⟩
      rcases List.mem_cons.mp hb with hb | hb
      · exact absurd (hb ▸ hid) hxid
      · exact ⟨b, hb, hid⟩
    have hall1 : ∀ b ∈ rest, env b ≠ RemoteOutcome.throws :=
      fun b hb => hall b (List.mem_cons_of_mem _ hb)
    simpa [syncQueue] using ih (syncAction env st a).fst hall1 hcov1

/-! ### Claim theorems -/

/-- C8: `saveExpense` (the spec's `putRecord`) is an idempotent
insert-or-replace keyed by identifier: applying it twice equals applying
it once, afterwards the record stored under the identifier is the new
record, and the pending-action collection is untouched. -/
theorem saveExpense_insert_or_replace (s : OfflineStorage) (e : OfflineExpense) :
    (s.saveExpense e).saveExpense e = s.saveExpense e ∧
    lookupExpense (s.saveExpense e) e.id = some e ∧
    (s.saveExpense e).pending = s.pending := by
  refine ⟨?_, ?_, rfl⟩
  · simp only [OfflineStorage.saveExpense]
    rw [putByKey_putByKey_same]
  · exact lookupByKey_putByKey_self (fun r => r.id) e s.expenses

/-- C9: a queued `create` action is handled by a drain iteration without
any remote call (the `switch` has no `create` case): the local cached
record is overwritten by the action's snapshot marked `synced = true`,
and the action is removed from the queue. -/
theorem create_action_synced_locally (env : SyncEnv) (st : OfflineStorage)
    (a : PendingAction) (hk : a.action = ActionKind.create) :
    (syncAction env st a).snd = [] ∧
    lookupExpense (syncAction env st a).fst a.expense.id =
      some { a.expense with synced := true } ∧
    lookupPending (syncAction env st a).fst a.id = none := by
  have hs : syncAction env st a =
      ((st.saveExpense { a.expense with synced := true }).deletePendingAction a.id,
        callsOfAction a) := by
    simp [syncAction, hk]
  rw [hs]
  refine ⟨by simp [callsOfAction, hk], ?_, ?_⟩
  · exact lookupByKey_putByKey_self (fun r => r.id) { a.expense with synced := true }
      st.expenses
  · exact lookupByKey_eraseByKey_self (fun p => p.id) a.id
      (st.saveExpense { a.expense with synced := true }).pending

/-- C9 witness: the concrete `create` action `c9Act` drained against
`c9St` makes no remote call, installs its snapshot as synced, and leaves
the queue without it. -/
theorem create_action_synced_locally_witness :
    (syncAction allOk c9St c9Act).snd = [] ∧
    lookupExpense (syncAction allOk c9St c9Act).fst c9Act.expense.id =
      some { c9Act.expense with synced := true } ∧
    lookupPending (syncAction allOk c9St c9Act).fst c9Act.id = none :=
  create_action_synced_locally allOk c9St c9Act (by decide)

/-- C10: whatever the caller passes in `partialFields` — even an explicit
`synced: true` or a stale `updated_at` — the record `updateExpense`
returns and persists has `synced = false` and `updated_at` equal to the
fresh clock reading, because those two fields are assigned after the
spread of the updates. -/
theorem update_forces_unsynced (s : OfflineStorage) (i : String) (u : ExpenseUpdates)
    (now actionId : String) (ts : Nat) (s2 : OfflineStorage) (r : OfflineExpense)
    (h : updateExpense s i u now actionId ts = Except.ok (s2, r)) :
    r.synced = false ∧ r.updated_at = now ∧ lookupExpense s2 r.id = some r := by
  rcases hl : lookupByKey (fun e => e.id) i s.getAllExpenses with _ | e
  · rw [updateExpense, hl] at h
    exact absurd h (by simp)
  · have hcomp : updateExpense s i u now actionId ts =
        Except.ok ((s.saveExpense (mergeExpense e u now)).addPendingAction
          { id := actionId, action := ActionKind.update
            expense := mergeExpense e u now, timestamp := ts }, mergeExpense e u now) := by
      rw [updateExpense, hl]
    rw [hcomp] at h
    rw [Except.ok.injEq, Prod.mk.injEq] at h
    obtain ⟨hs2, hr⟩ := h
    subst hs2
    subst hr
    refine ⟨rfl, rfl, ?_⟩
    exact lookupByKey_putByKey_self (fun x => x.id) (mergeExpense e u now) s.expenses

/-- C10 witness: updating `c4Exp` with a `partialFields` that itself sets
`synced: true` and a stale `updated_at` still yields a record with
`synced = false` and the fresh timestamp, persisted in the store. -/
theorem update_forces_unsynced_witness :
    (mergeExpense c4Exp c10Upd "2024-06-02").synced = false ∧
    (mergeExpense c4Exp c10Upd "2024-06-02").updated_at = "2024-06-02" ∧
    lookupExpense ((c4St.saveExpense (mergeExpense c4Exp c10Upd "2024-06-02")).addPendingAction
      { id := "actX", action := ActionKind.update
        expense := mergeExpense c4Exp c10Upd "2024-06-02", timestamp := 200 })
      (mergeExpense c4Exp c10Upd "2024-06-02").id =
      some (mergeExpense c4Exp c10Upd "2024-06-02") :=
  update_forces_unsynced c4St "e4" c10Upd "2024-06-02" "actX" 200 _ _ rfl

/-- C6: `updateExpense` and `deleteExpense` against an id with no cached
record reject with `RecordNotFound`; the rejection happens before any
store write, so no action is enqueued and no record is created. -/
theorem missing_record_rejected (s : OfflineStorage) (i : String) (u : ExpenseUpdates)
    (now actionId : String) (ts : Nat) (h : lookupExpense s i = none) :
    updateExpense s i u now actionId ts = Except.error SyncErr.RecordNotFound ∧
    deleteExpense s i actionId ts = Except.error SyncErr.RecordNotFound := by
  have h2 : lookupByKey (fun e => e.id) i s.getAllExpenses = none := h
  constructor
  · rw [updateExpense, h2]
  · rw [deleteExpense, h2]

/-- C6 witness: `"missing-id"` is not cached in `c6St`, and both
mutations reject with `RecordNotFound`. -/
theorem missing_record_rejected_witness :
    updateExpense c6St "missing-id" c4Upd "2024-06-03" "actY" 300 =
      Except.error SyncErr.RecordNotFound ∧
    deleteExpense c6St "missing-id" "actY" 300 = Except.error SyncErr.RecordNotFound :=
  missing_record_rejected c6St "missing-id" c4Upd "2024-06-03" "actY" 300 (by decide)

/-- C1 counterexample: an action whose remote call *returns an error*
(resolves with an error object) is not left untouched.  Draining the
queued update `c1A` under an environment whose call resolves carrying an
error, the drain — which never reads the result's `error` field — marks
the record synced and removes the action, refuting the claim's
"throws or returns an error → both left untouched". -/
theorem error_returning_update_marked_synced :
    resolvesWithError c1A = RemoteOutcome.resolves true ∧
    lookupExpense (syncQueue resolvesWithError c1St [c1A]).fst "ra" =
      some { c1ExpA with synced := true } ∧
    lookupPending (syncQueue resolvesWithError c1St [c1A]).fst "a1" = none := by
  refine ⟨rfl, by decide, by decide⟩

/-- C1 (amended): isolation of *throwing* failures in a drain pass.  An
action whose awaited remote call rejects leaves the storage exactly as
it was and the loop continues with the rest of the queue; an `update`
action whose call resolves in the same pass — cleanly or with an error
payload, which the drain never inspects — ends with its record stored
as `synced = true` and its queue entry removed, while the throwing
action's queue entry and record are unchanged at the end of the pass. -/
theorem sync_failure_isolated (env : SyncEnv) (st : OfflineStorage) (a b : PendingAction)
    (eb : Bool)
    (ha : env a = RemoteOutcome.throws) (hak : a.action ≠ ActionKind.create)
    (hb : env b = RemoteOutcome.resolves eb) (hbk : b.action = ActionKind.update)
    (hid : a.id ≠ b.id) (hrec : a.expense.id ≠ b.expense.id) :
    syncAction env st a = (st, callsOfAction a) ∧
    (∀ rest, (syncQueue env st (a :: rest)).fst = (syncQueue env st rest).fst) ∧
    lookupPending (syncQueue env st [a, b]).fst a.id = lookupPending st a.id ∧
    lookupExpense (syncQueue env st [a, b]).fst a.expense.id =
      lookupExpense st a.expense.id ∧
    lookupExpense (syncQueue env st [a, b]).fst b.expense.id =
      some { b.expense with synced := true } ∧
    lookupPending (syncQueue env st [a, b]).fst b.id = none := by
  have hfail := syncAction_fail env st a ha hak
  have hstepb : syncAction env st b =
      ((st.saveExpense { b.expense with synced := true }).deletePendingAction b.id,
        callsOfAction b) := by
    simp [syncAction, hbk, hb]
  have hpass : (syncQueue env st [a, b]).fst =
      (st.saveExpense { b.expense with synced := true }).deletePendingAction b.id := by
    simp [syncQueue, hfail, hstepb]
  refine ⟨hfail, ?_, ?_, ?_, ?_, ?_⟩
  · intro rest
    simp [syncQueue, hfail]
  · rw [hpass]
    exact lookupByKey_eraseByKey_ne (fun p => p.id) b.id a.id st.pending (Ne.symm hid)
  · rw [hpass]
    exact lookupByKey_putByKey_ne (fun r => r.id) { b.expense with synced := true }
      a.expense.id st.expenses (Ne.symm hrec)
  · rw [hpass]
    exact lookupByKey_putByKey_self (fun r => r.id) { b.expense with synced := true }
      st.expenses
  · rw [hpass]
    exact lookupByKey_eraseByKey_self (fun p => p.id) b.id
      (st.saveExpense { b.expense with synced := true }).pending

/-- C1 witness: in the concrete pass over `[c1A, c1B]` with `c1A`'s call
throwing and `c1B`'s resolving, `c1B`'s record ends synced and dequeued
while `c1A`'s record and queue entry are untouched. -/
theorem sync_failure_isolated_witness :
    lookupPending (syncQueue c1Env c1St [c1A, c1B]).fst c1A.id = lookupPending c1St c1A.id ∧
    lookupExpense (syncQueue c1Env c1St [c1A, c1B]).fst c1A.expense.id =
      lookupExpense c1St c1A.expense.id ∧
    lookupExpense (syncQueue c1Env c1St [c1A, c1B]).fst c1B.expense.id =
      some { c1B.expense with synced := true } ∧
    lookupPending (syncQueue c1Env c1St [c1A, c1B]).fst c1B.id = none := by
  have h := sync_failure_isolated c1Env c1St c1A c1B false (by decide) (by decide)
    (by decide) (by decide) (by decide) (by decide)
  exact ⟨h.2.2.1, h.2.2.2.1, h.2.2.2.2.1, h.2.2.2.2.2⟩

/-- C4: optimistic visibility of updates.  When a record with the given
id is cached, `updateExpense` returns the merged record: the store then
holds the merge under that id with `synced = false` and `updated_at`
stamped to the clock reading, each updated field (e.g. `amount`) taking
the partial-update value, and an `update` action carrying the full
merged snapshot sits in the queue — all effects of the call itself,
before any remote interaction (the triggered drain is a separate,
asynchronous step). -/
theorem update_optimistic_visibility (s : OfflineStorage) (i : String)
    (u : ExpenseUpdates) (now actionId : String) (ts : Nat) (e : OfflineExpense)
    (hl : lookupExpense s i = some e) (hid : u.id = none) :
    ∃ s2, updateExpense s i u now actionId ts =
        Except.ok (s2, mergeExpense e u now) ∧
      lookupExpense s2 i = some (mergeExpense e u now) ∧
      (mergeExpense e u now).synced = false ∧
      (mergeExpense e u now).updated_at = now ∧
      (mergeExpense e u now).amount = u.amount.getD e.amount ∧
      lookupPending s2 actionId =
        some { id := actionId, action := ActionKind.update
               expense := mergeExpense e u now, timestamp := ts } := by
  have heid : e.id = i := lookupByKey_eq_some_key hl
  have hl2 : lookupByKey (fun x => x.id) i s.getAllExpenses = some e := hl
  have hmid : (mergeExpense e u now).id = i := by
    simp [mergeExpense, hid, heid]
  refine ⟨(s.saveExpense (mergeExpense e u now)).addPendingAction
      { id := actionId, action := ActionKind.update
        expense := mergeExpense e u now, timestamp := ts }, ?_, ?_, rfl, rfl, rfl, ?_⟩
  · rw [updateExpense, hl2]
  · rw [← hmid]
    exact lookupByKey_putByKey_self (fun x => x.id) (mergeExpense e u now) s.expenses
  · exact lookupByKey_putByKey_self (fun p => p.id)
      { id := actionId, action := ActionKind.update
        expense := mergeExpense e u now, timestamp := ts }
      (s.saveExpense (mergeExpense e u now)).pending

/-- C4 witness: `update("e4", {amount: 50})` on `c4St` immediately leaves
the store with `amount = 50`, `synced = false`, a fresh `updated_at`,
and the queued `update` action holding the merged snapshot. -/
theorem update_optimistic_visibility_witness :
    ∃ s2, updateExpense c4St "e4" c4Upd "2024-06-01" "act1" 100 =
        Except.ok (s2, mergeExpense c4Exp c4Upd "2024-06-01") ∧
      lookupExpense s2 "e4" = some (mergeExpense c4Exp c4Upd "2024-06-01") ∧
      (mergeExpense c4Exp c4Upd "2024-06-01").synced = false ∧
      (mergeExpense c4Exp c4Upd "2024-06-01").updated_at = "2024-06-01" ∧
      (mergeExpense c4Exp c4Upd "2024-06-01").amount = c4Upd.amount.getD c4Exp.amount ∧
      lookupPending s2 "act1" =
        some { id := "act1", action := ActionKind.update
               expense := mergeExpense c4Exp c4Upd "2024-06-01", timestamp := 100 } :=
  update_optimistic_visibility c4St "e4" c4Upd "2024-06-01" "act1" 100 c4Exp
    (by decide) (by decide)

/-- C5 counterexample: the record does *not* stay in the local store
until a drain in which the delete's remote call succeeds.  Under an
environment whose remote delete resolves carrying an error object — a
failing call the drain never checks — the drain iteration still removes
the cached record `"e5"` and dequeues the action, refuting the claim's
"absent only after ... succeeds". -/
theorem error_returning_delete_removes_record :
    resolvesWithError ⟨"act5", ActionKind.delete, c5Exp, 500⟩ =
      RemoteOutcome.resolves true ∧
    lookupExpense c5StQ "e5" = some c5Exp ∧
    lookupExpense
      (syncAction resolvesWithError c5StQ ⟨"act5", ActionKind.delete, c5Exp, 500⟩).fst
      "e5" = none ∧
    lookupPending
      (syncAction resolvesWithError c5StQ ⟨"act5", ActionKind.delete, c5Exp, 500⟩).fst
      "act5" = none := by
  refine ⟨rfl, by decide, by decide, by decide⟩

/-- C5 (amended): delete is conservative up to reconciliation.
`deleteExpense` only enqueues a `delete` action snapshotting the record:
the cached record is still present when the call returns.  The record
leaves the store exactly when a drain iteration's remote call for that
action *resolves* — cleanly or with an error payload, which the drain
never inspects — which also dequeues the action; only a remote call that
throws leaves the record and the action in place. -/
theorem delete_is_conservative (s : OfflineStorage) (i actionId : String) (ts : Nat)
    (e : OfflineExpense) (hl : lookupExpense s i = some e) :
    ∃ s2, deleteExpense s i actionId ts = Except.ok s2 ∧
      s2.expenses = s.expenses ∧
      lookupExpense s2 i = some e ∧
      lookupPending s2 actionId = some ⟨actionId, ActionKind.delete, e, ts⟩ ∧
      (∀ (env : SyncEnv) (r : Bool),
        env ⟨actionId, ActionKind.delete, e, ts⟩ = RemoteOutcome.resolves r →
        lookupExpense (syncAction env s2 ⟨actionId, ActionKind.delete, e, ts⟩).fst i =
          none ∧
        lookupPending (syncAction env s2 ⟨actionId, ActionKind.delete, e, ts⟩).fst
          actionId = none) ∧
      (∀ env : SyncEnv,
        env ⟨actionId, ActionKind.delete, e, ts⟩ = RemoteOutcome.throws →
        (syncAction env s2 ⟨actionId, ActionKind.delete, e, ts⟩).fst = s2) := by
  have heid : e.id = i := lookupByKey_eq_some_key hl
  have hl2 : lookupByKey (fun x => x.id) i s.getAllExpenses = some e := hl
  refine ⟨s.addPendingAction ⟨actionId, ActionKind.delete, e, ts⟩, ?_, rfl, hl, ?_, ?_, ?_⟩
  · rw [deleteExpense, hl2]
  · exact lookupByKey_putByKey_self (fun p => p.id) ⟨actionId, ActionKind.delete, e, ts⟩
      s.pending
  · intro env r henv
    have hstep : (syncAction env (s.addPendingAction ⟨actionId, ActionKind.delete, e, ts⟩)
        ⟨actionId, ActionKind.delete, e, ts⟩) =
        (((s.addPendingAction ⟨actionId, ActionKind.delete, e, ts⟩).deleteExpense
            e.id).deletePendingAction actionId,
          callsOfAction ⟨actionId, ActionKind.delete, e, ts⟩) := by
      simp [syncAction, henv]
    rw [hstep]
    constructor
    · rw [← heid]
      exact lookupByKey_eraseByKey_self (fun r => r.id) e.id
        (s.addPendingAction ⟨actionId, ActionKind.delete, e, ts⟩).expenses
    · exact lookupByKey_eraseByKey_self (fun p => p.id) actionId
        ((s.addPendingAction ⟨actionId, ActionKind.delete, e, ts⟩).deleteExpense
          e.id).pending
  · intro env henv
    rw [syncAction_fail env _ _ henv (fun hcon => ActionKind.noConfusion hcon)]

/-- C5 witness: deleting `"e5"` from `c5St` leaves the record visible
with the `delete` action queued; a drain iteration whose remote call
resolves then removes both, and one whose call throws changes nothing. -/
theorem delete_is_conservative_witness :
    ∃ s2, deleteExpense c5St "e5" "act5" 500 = Except.ok s2 ∧
      s2.expenses = c5St.expenses ∧
      lookupExpense s2 "e5" = some c5Exp ∧
      lookupPending s2 "act5" = some ⟨"act5", ActionKind.delete, c5Exp, 500⟩ ∧
      (∀ (env : SyncEnv) (r : Bool),
        env ⟨"act5", ActionKind.delete, c5Exp, 500⟩ = RemoteOutcome.resolves r →
        lookupExpense (syncAction env s2 ⟨"act5", ActionKind.delete, c5Exp, 500⟩).fst
          "e5" = none ∧
        lookupPending (syncAction env s2 ⟨"act5", ActionKind.delete, c5Exp, 500⟩).fst
          "act5" = none) ∧
      (∀ env : SyncEnv,
        env ⟨"act5", ActionKind.delete, c5Exp, 500⟩ = RemoteOutcome.throws →
        (syncAction env s2 ⟨"act5", ActionKind.delete, c5Exp, 500⟩).fst = s2) :=
  delete_is_conservative c5St "e5" "act5" 500 c5Exp (by decide)

/-- C3 counterexample: two back-to-back triggers do *not* result in
exactly one drain.  `isSyncing` is render-scoped `useState`: the first
trigger's `setIsSyncing(true)` is invisible to a second trigger of the
same render, whose closure still reads the captured `isSyncing = false`.
From the online, idle render state `c3St` (two queued actions), the
trigger is not a no-op and attempts two remote calls — so the pair of
back-to-back triggers, both evaluating on the same captured state,
attempts four calls, double the single drain the claim allows. -/
theorem back_to_back_second_not_refused :
    syncPendingActions allOk c3St ≠ (c3St, []) ∧
    (syncPendingActions allOk c3St).snd.length = 2 ∧
    backToBackCalls allOk c3St =
      attemptedCalls c3St.storage.getPendingActions ++
        attemptedCalls c3St.storage.getPendingActions ∧
    (backToBackCalls allOk c3St).length = 4 := by
  refine ⟨by decide, by decide, by decide, by decide⟩

/-- C3 (amended): the drain's guard refuses a trigger exactly when the
trigger's *captured* render state shows offline or an in-progress drain
(such a trigger is a no-op with no remote calls), and a trigger whose
captured state is online and idle executes the drain loop.  Because
`isSyncing` is render-scoped, a second back-to-back trigger within the
same render captures the stale `isSyncing = false`, so it is not refused
and both triggers attempt the full drain's remote calls; mutual
exclusion holds only against triggers from renders that observed
`isSyncing = true`. -/
theorem sync_guard_refusal (env : SyncEnv) (s : SyncState)
    (hon : s.isOnline = true) (hsy : s.isSyncing = false) :
    (∀ s2 : SyncState, s2.isOnline = false ∨ s2.isSyncing = true →
      syncPendingActions env s2 = (s2, [])) ∧
    (syncPendingActions env s).snd =
      (syncQueue env s.storage s.storage.getPendingActions).snd ∧
    backToBackCalls env s =
      (syncQueue env s.storage s.storage.getPendingActions).snd ++
        (syncQueue env s.storage s.storage.getPendingActions).snd := by
  have hrun : (syncPendingActions env s).snd =
      (syncQueue env s.storage s.storage.getPendingActions).snd := by
    simp [syncPendingActions, hon, hsy]
  refine ⟨?_, hrun, ?_⟩
  · intro s2 h2
    rcases h2 with h2 | h2 <;> simp [syncPendingActions, h2]
  · rw [backToBackCalls, hrun]

/-- C3 witness: from the online, idle render state `c3St`, a trigger
whose captured state shows a drain in progress is refused, the idle
trigger runs the drain loop, and two back-to-back triggers on the same
captured state attempt the drain's calls twice. -/
theorem sync_guard_refusal_witness :
    syncPendingActions allOk { c3St with isSyncing := true } =
      ({ c3St with isSyncing := true }, []) ∧
    (syncPendingActions allOk c3St).snd =
      (syncQueue allOk c3St.storage c3St.storage.getPendingActions).snd ∧
    backToBackCalls allOk c3St =
      (syncQueue allOk c3St.storage c3St.storage.getPendingActions).snd ++
        (syncQueue allOk c3St.storage c3St.storage.getPendingActions).snd :=
  ⟨(sync_guard_refusal allOk c3St rfl rfl).1 { c3St with isSyncing := true }
      (Or.inr rfl),
   (sync_guard_refusal allOk c3St rfl rfl).2.1,
   (sync_guard_refusal allOk c3St rfl rfl).2.2⟩

/-- C7: idempotent replay.  If every queued action's remote call
succeeds, a drain from an online, idle state leaves the pending queue
empty, and a second drain run on the resulting state attempts zero
remote calls. -/
theorem drain_idempotent_replay (env : SyncEnv) (s : SyncState)
    (hall : ∀ a ∈ s.storage.getPendingActions, env a = RemoteOutcome.resolves false)
    (hon : s.isOnline = true) (hsy : s.isSyncing = false) :
    (syncPendingActions env s).fst.storage.getPendingActions = [] ∧
    (syncPendingActions env (syncPendingActions env s).fst).snd = [] := by
  have hall2 : ∀ a ∈ s.storage.getPendingActions, env a ≠ RemoteOutcome.throws := by
    intro a ha hcon
    rw [hall a ha] at hcon
    exact RemoteOutcome.noConfusion hcon
  have hpend : (syncQueue env s.storage s.storage.pending).fst.pending = [] :=
    syncQueue_pending_nil env s.storage.pending s.storage hall2
      (fun x hx => ⟨x, hx, rfl⟩)
  have hfst : (syncPendingActions env s).fst =
      { storage := (syncQueue env s.storage s.storage.pending).fst
        isOnline := s.isOnline
        isSyncing := false
        pendingCount :=
          (syncQueue env s.storage s.storage.pending).fst.pending.length } := by
    simp [syncPendingActions, hon, hsy, OfflineStorage.getPendingActions]
  constructor
  · rw [hfst]
    exact hpend
  · rw [hfst]
    simp [syncPendingActions, hon, OfflineStorage.getPendingActions, hpend, syncQueue]

/-- C7 witness: draining `c7St` under an all-success environment empties
the queue, and a second drain attempts no remote call. -/
theorem drain_idempotent_replay_witness :
    (syncPendingActions allOk c7St).fst.storage.getPendingActions = [] ∧
    (syncPendingActions allOk (syncPendingActions allOk c7St).fst).snd = [] :=
  drain_idempotent_replay allOk c7St (fun _ _ => rfl) rfl rfl

/-- C2 counterexample: the queue read by the drain is ordered by the
pending store's key path `id` (here the enqueue-order-unrelated ids
`"b"` then `"a"`), not by enqueue timestamp.  In `c2Store`, built by
enqueueing `c2ActA` (timestamp 1) and then `c2ActB` (timestamp 2),
`getPendingActions` returns the timestamp-2 action first, and an
all-success drain invokes the remote update with timestamp 2's snapshot
(amount 25) before timestamp 1's (amount 10). -/
theorem getPendingActions_not_timestamp_ordered :
    c2Store.getPendingActions = [c2ActB, c2ActA] ∧
    c2ActA.timestamp < c2ActB.timestamp ∧
    ¬ c2Store.getPendingActions.Chain' (fun p q => p.timestamp ≤ q.timestamp) ∧
    (syncQueue allOk c2Store c2Store.getPendingActions).snd =
      [RemoteCall.update "e1" (remoteUpdatePayload c2ActB.expense),
       RemoteCall.update "e1" (remoteUpdatePayload c2ActA.expense)] := by
  have h1 : c2Store.getPendingActions = [c2ActB, c2ActA] := by decide
  refine ⟨h1, by decide, ?_, by decide⟩
  rw [h1]
  simp [List.chain'_cons, c2ActA, c2ActB]

/-- C2 (amended): `getPendingActions` returns the queue ordered by the
action identifier (the pending store's primary key) ascending — for any
store built by enqueues — and a drain pass attempts the remote calls in
exactly that list order; enqueue-timestamp order is followed only when
the randomly generated action ids happen to sort like the timestamps. -/
theorem getPendingActions_id_ordered (acts : List PendingAction) (env : SyncEnv)
    (st : OfflineStorage) (l : List PendingAction) :
    ((OfflineStorage.empty.enqueueAll acts).getPendingActions).Chain'
      (fun p q => strLt p.id q.id = true) ∧
    (syncQueue env st l).snd = attemptedCalls l := by
  constructor
  · have key : ∀ (as : List PendingAction) (s0 : OfflineStorage),
        s0.pending.Chain' (fun p q => strLt p.id q.id = true) →
        (s0.enqueueAll as).pending.Chain' (fun p q => strLt p.id q.id = true) := by
      intro as
      induction as with
      | nil => exact fun s0 h => h
      | cons a rest ih =>
        intro s0 h
        exact ih (s0.addPendingAction a) (chain_putByKey _ a _ h)
    exact key acts OfflineStorage.empty List.chain'_nil
  · exact syncQueue_calls env l st

end ParisGastos
